import Mathlib

/-!
# The CLI bootstrap shell of golang-program

A shallow embedding of `main.go` (the top-level driver) and of
`program/program_test.go` (the test of the version flag), with the effects the
driver has on the process made explicit: what is written to standard output,
which requests to terminate the process are made and through which function,
which bindings are added to the kong context, when the Runner is invoked and
what is logged.

`program/program.go` (the `Options` type, `Options.Parse`, `Options.Run`, the
package variable `exitFunc`) is not among the sources.  The driver is therefore
embedded over an arbitrary behaviour of `Options.Parse` and an arbitrary result
of the Runner; the definitions marked `Modelled from the spec:` follow the
specification where a statement is about the missing code itself.
-/

namespace GolangProgram

/-! ## Data model -/

/-- Value held by the package variable `exitFunc` of package `program`: either
`os.Exit` (the value the test restores in its deferred function) or the closure
of the test, `func(x int) { exitValue = x }`. -/
inductive ExitFunc
  | osExit
  | capture
  deriving DecidableEq, Repr

/-- A zerolog logger (`zerolog.Logger`), identified by a name. -/
structure Logger where
  name : String
  deriving DecidableEq, Repr

/-- Modelled from the spec: the type `Options` is declared in
`program/program.go`, which is not among the sources.  The spec says that it
"holds flags": the version flag, and the other flags that were given. -/
structure Options where
  Version : Bool
  flags : List String
  deriving DecidableEq, Repr

/-- Zero value of `Options`, as obtained by `var options program.Options`. -/
def Options.zero : Options := ⟨false, []⟩

/-- Types under which a value is bound in the kong context. -/
inductive Capability
  | contextContext
  | zerologLogger
  | programOptions
  | valueCtx
  deriving DecidableEq, Repr

/-- Values that `main` binds. -/
inductive Value
  | ctx (logger : Logger)
  | logger (l : Logger)
  | options (o : Options)
  deriving DecidableEq, Repr

/-- Dynamic type of a value, the key `Bind` uses. -/
def Value.typeOf : Value → Capability
  | .ctx _ => .valueCtx
  | .logger _ => .zerologLogger
  | .options _ => .programOptions

/-- One binding of the kong context. -/
structure Binding where
  key : Capability
  value : Value
  deriving DecidableEq, Repr

/-- The `*kong.Context` returned by `Parse`: the bindings it holds, oldest first. -/
structure KongContext where
  bindings : List Binding
  deriving DecidableEq, Repr

/-- Severity of a log record. -/
inductive Level
  | info
  | error
  deriving DecidableEq, Repr

/-- What the program does that can be observed from outside, in order. -/
inductive Event
  | parse (args : List String)
  | exitFunc (code : Int)
  | osExit (code : Int)
  | bind (key : Capability) (v : Value)
  | run (bindings : List Binding) (err : Option String)
  | log (level : Level) (err : Option String) (msg : String)
  deriving DecidableEq, Repr

/-- State of the process: the package variable `exitFunc`, the global logger
`log.Logger`, the text written to standard output so far, the variable
`exitValue` captured by the closure of the test, the failure mark of the
`testing.T`, and the trace of events. -/
structure World where
  exitFunc : ExitFunc
  logger : Logger
  stdout : String
  exitValue : Int
  failed : Bool
  events : List Event
  deriving DecidableEq, Repr

/-- Result of running a piece of the program from a state: it returns a value,
or the process was terminated by `os.Exit`, or it panics. -/
inductive Res (α : Type)
  | ret (a : α) (w : World)
  | exit (code : Int) (w : World)
  | panic (msg : String) (w : World)
  deriving DecidableEq, Repr

/-- State in which a result leaves the process. -/
def Res.world {α : Type} : Res α → World
  | .ret _ w => w
  | .exit _ w => w
  | .panic _ w => w

/-- Exit code of the process when `main` ends with this result: 0 when `main`
returns, the code given to `os.Exit`, 2 for a panic. -/
def Res.exitCode {α : Type} : Res α → Int
  | .ret _ _ => 0
  | .exit code _ => code
  | .panic _ _ => 2

/-- A piece of the program: a function from the state to a result. -/
def Proc (α : Type) : Type := World → Res α

/-- Sequencing: the second piece runs only when the first one returns. -/
def Proc.bind {α β : Type} (m : Proc α) (f : α → Proc β) : Proc β := fun w =>
  match m w with
  | .ret a w1 => f a w1
  | .exit code w1 => .exit code w1
  | .panic msg w1 => .panic msg w1

instance : Monad Proc where
  pure a := fun w => .ret a w
  bind := Proc.bind

/-! ## Primitives -/

/-- Appends an event to the trace. -/
def emit (e : Event) : Proc Unit := fun w =>
  .ret () { w with events := w.events ++ [e] }

/-- The call `os.Exit(code)`: the process terminates, nothing runs after it. -/
def os_Exit (code : Int) : Proc Unit := fun w =>
  .exit code { w with events := w.events ++ [.osExit code] }

/-- The call `exitFunc(code)`: calls whatever the package variable holds. -/
def callExitFunc (code : Int) : Proc Unit := fun w =>
  match w.exitFunc with
  | .osExit => os_Exit code { w with events := w.events ++ [.exitFunc code] }
  | .capture => .ret () { w with exitValue := code, events := w.events ++ [.exitFunc code] }

/-- The call `fmt.Println(s)`: writes the text and a newline to standard output. -/
def fmt_Println (s : String) : Proc Unit := fun w =>
  .ret () { w with stdout := w.stdout ++ s ++ "\n" }

/-- A run-time panic. -/
def goPanic {α : Type} (msg : String) : Proc α := fun w => .panic msg w

/-- The expression `log.Logger`: reads the global logger. -/
def log_Logger : Proc Logger := fun w => .ret w.logger w

/-- The expression `log.Logger.WithContext(context.Background())`: a context that
carries the global logger. -/
def log_Logger_WithContext : Proc Value := fun w => .ret (.ctx w.logger) w

/-- The call `log.Err(err).Msg(msg)`: zerolog logs at error level when `err` is
not nil and at info level otherwise. -/
def log_Err_Msg (err : Option String) (msg : String) : Proc Unit :=
  emit (.log (if err.isSome then .error else .info) err msg)

/-- The call `kongContext.BindTo(impl, iface)`; a nil context panics. -/
def KongContext.BindTo (c : Option KongContext) (impl : Value) (iface : Capability) :
    Proc (Option KongContext) :=
  match c with
  | none => goPanic "invalid memory address or nil pointer dereference"
  | some k => do
    emit (.bind iface impl)
    pure (some { k with bindings := k.bindings ++ [⟨iface, impl⟩] })

/-- The call `kongContext.Bind(v)`: binds the value under its own type. -/
def KongContext.Bind (c : Option KongContext) (v : Value) : Proc (Option KongContext) :=
  KongContext.BindTo c v v.typeOf

/-- The call `kongContext.Run(&options)`, which ends up calling `options.Run()`:
the Runner gets the context with its bindings and the options, and returns an
error or nil.  What it returns is the parameter `run`. -/
def KongContext.Run (run : KongContext → Options → Option String)
    (c : Option KongContext) (options : Options) : Proc (Option String) :=
  match c with
  | none => goPanic "invalid memory address or nil pointer dereference"
  | some k => do
    emit (.run k.bindings (run k options))
    pure (run k options)

/-! ## Options.Parse -/

/-- What `Options.Parse` can do while it runs. -/
inductive Effect
  | println (s : String)
  | exit (code : Int)
  | panic (msg : String)
  deriving DecidableEq, Repr

/-- Behaviour of one call of `Options.Parse`: the effects it performs in order,
the value the receiver holds afterwards, and the two values it returns. -/
structure ParseBehaviour where
  effects : List Effect
  options : Options
  kongContext : Option KongContext
  err : Option String
  deriving DecidableEq, Repr

/-- Performs one effect. -/
def perform : Effect → Proc Unit
  | .println s => fmt_Println s
  | .exit code => callExitFunc code
  | .panic msg => goPanic msg

/-- Performs effects in order. -/
def performAll : List Effect → Proc Unit
  | [] => pure ()
  | e :: es => do
    perform e
    performAll es

/-- The call `options.Parse(args)` for a parser of behaviour `parse`. -/
def Options.Parse (parse : List String → ParseBehaviour) (args : List String) :
    Proc (Option KongContext × Options × Option String) := do
  emit (.parse args)
  performAll (parse args).effects
  pure ((parse args).kongContext, (parse args).options, (parse args).err)

/-- Modelled from the spec: the schema that `program/program.go` (not among the
sources) declares.  The spec names one recognised flag, `--version`, and says
the schema holds "recognized flags"; `flags` are the other recognised flags and
`errorText` is the text of the ParseError for a malformed argument list. -/
structure Schema where
  flags : List String
  errorText : List String → String

/-- Modelled from the spec: the version string, "a literal version string
(currently `unknown`)"; its declaration is in `program/program.go`. -/
def Version : String := "unknown"

/-- Modelled from the spec: `Options.Parse` of `program/program.go`, which is
not among the sources.  "Any unrecognized or malformed argument sequence" is a
parse error ("For all malformed argument sequences, parsing yields
ParseError"); otherwise the arguments are validated against the schema and, on
a match of the version flag, "the version string is printed to standard output
followed by a newline" and termination with code 0 is requested through
`exitFunc`; parsing yields "an Options value and a Container handle". -/
def Parse (schema : Schema) (args : List String) : ParseBehaviour :=
  if args.all (fun a => a == "--version" || schema.flags.contains a) then
    if args.contains "--version" then
      { effects := [.println Version, .exit 0]
        options := ⟨true, args.filter (fun a => a != "--version")⟩
        kongContext := some ⟨[]⟩
        err := none }
    else
      { effects := []
        options := ⟨false, args⟩
        kongContext := some ⟨[]⟩
        err := none }
  else
    { effects := []
      options := Options.zero
      kongContext := none
      err := some (schema.errorText args) }

/-! ## main.go -/

/-- The function `main` of `main.go`, for command-line arguments `args`
(`os.Args[1:]`). -/
def main (parse : List String → ParseBehaviour) (run : KongContext → Options → Option String)
    (args : List String) : Proc Unit := do
  let (kongContext, options, err) ← Options.Parse parse args
  if let some e := err then
    fmt_Println e
    os_Exit 1
  let ctx ← log_Logger_WithContext
  let kongContext ← KongContext.BindTo kongContext ctx .contextContext
  let logger ← log_Logger
  let kongContext ← KongContext.Bind kongContext (.logger logger)
  let kongContext ← KongContext.Bind kongContext (.options options)
  let err ← KongContext.Run run kongContext options
  if err.isSome then
    log_Err_Msg err "Program failed"
    os_Exit 1

/-! ## program_test.go -/

/-- A Go `defer`: the deferred function runs when the body returns and when it
panics; it does not run when the process is terminated by `os.Exit`. -/
def withDefer {α : Type} (deferred : Proc Unit) (body : Proc α) : Proc α := fun w =>
  match body w with
  | .ret a w1 =>
    match deferred w1 with
    | .ret _ w2 => .ret a w2
    | .exit code w2 => .exit code w2
    | .panic msg w2 => .panic msg w2
  | .panic msg w1 =>
    match deferred w1 with
    | .ret _ w2 => .panic msg w2
    | .exit code w2 => .exit code w2
    | .panic msg2 w2 => .panic msg2 w2
  | .exit code w1 => .exit code w1

/-- The call `capturer.CaptureStdout(f)`: runs `f` with standard output
redirected and returns what `f` wrote. -/
def CaptureStdout (f : Proc Unit) : Proc String := fun w =>
  match f { w with stdout := "" } with
  | .ret _ w1 => .ret w1.stdout { w1 with stdout := w.stdout }
  | .exit code w1 => .exit code { w1 with stdout := w.stdout }
  | .panic msg w1 => .panic msg { w1 with stdout := w.stdout }

/-- The call `assert.NoError(t, err)`: marks the test as failed when `err` is
not nil, and goes on. -/
def assert_NoError (err : Option String) : Proc Unit := fun w =>
  .ret () { w with failed := w.failed || err.isSome }

/-- The call `assert.Equal(t, a, b)`: marks the test as failed when the values
differ, and goes on. -/
def assert_Equal {α : Type} [DecidableEq α] (a b : α) : Proc Unit := fun w =>
  .ret () { w with failed := w.failed || !decide (a = b) }

/-- Assignment to the variable `exitValue` of the test. -/
def setExitValue (x : Int) : Proc Unit := fun w => .ret () { w with exitValue := x }

/-- Reads the variable `exitValue` of the test. -/
def getExitValue : Proc Int := fun w => .ret w.exitValue w

/-- Assignment to the package variable `exitFunc`. -/
def setExitFunc (f : ExitFunc) : Proc Unit := fun w => .ret () { w with exitFunc := f }

/-- The function `TestOptions_Run` of `program_test.go`: `exitValue := -1`, the
closure is installed, its removal is deferred, then the body runs. -/
def TestOptions_Run (parse : List String → ParseBehaviour) : Proc Unit := do
  setExitValue (-1)
  setExitFunc .capture
  withDefer (setExitFunc .osExit) do
    let out ← CaptureStdout do
      let (_, _, err) ← Options.Parse parse ["--version"]
      assert_NoError err
    let exitValue ← getExitValue
    assert_Equal exitValue 0
    assert_Equal "unknown\n" out

/-- Modelled from the spec: the initial value of the package variable
`exitFunc`, declared in `program/program.go` (not among the sources), is the
real process exit ("defaulting to the real OS exit"), the value the test
restores.  This is the state at the start of the process: `exitFunc` holds its
default, nothing was written and nothing has happened. -/
def World.init : World :=
  { exitFunc := .osExit, logger := ⟨"default"⟩, stdout := "", exitValue := 0, failed := false,
    events := [] }

/-- A schema with one more recognised flag, `--debug`; any malformed argument
list gets the error text `unknown flag`. -/
def exampleSchema : Schema := ⟨["--debug"], fun _ => "unknown flag"⟩

/-- State in which the test has installed its capturing closure: `exitFunc` is
overridden and `exitValue` is still -1. -/
def World.overridden : World := { World.init with exitFunc := .capture, exitValue := -1 }

/-- A parser that returns an error for every argument list, and does nothing else. -/
def failingParser : List String → ParseBehaviour :=
  fun _ => { effects := [], options := Options.zero, kongContext := none,
             err := some "unknown flag" }

/-- A parser that accepts every argument list, and does nothing else. -/
def acceptingParser : List String → ParseBehaviour :=
  fun args => { effects := [], options := ⟨false, args⟩, kongContext := some ⟨[]⟩, err := none }

/-! ## Classes of events -/

/-- A call of `Options.Parse`. -/
def Event.isParse : Event → Bool
  | .parse _ => true
  | _ => false

/-- A call through the package variable `exitFunc`. -/
def Event.isExitFunc : Event → Bool
  | .exitFunc _ => true
  | _ => false

/-- A request to terminate the process, through `exitFunc` or by `os.Exit`. -/
def Event.isExit : Event → Bool
  | .exitFunc _ => true
  | .osExit _ => true
  | _ => false

/-- A binding added to the kong context. -/
def Event.isBind : Event → Bool
  | .bind _ _ => true
  | _ => false

/-- An invocation of the Runner. -/
def Event.isRun : Event → Bool
  | .run _ _ => true
  | _ => false

/-- A log record. -/
def Event.isLog : Event → Bool
  | .log _ _ _ => true
  | _ => false

/-! ## Lemmas on sequencing -/

theorem bind_ret {α β : Type} (m : Proc α) (f : α → Proc β) (w w1 : World) (a : α)
    (h : m w = .ret a w1) : (m >>= f) w = f a w1 := by
  show Proc.bind m f w = f a w1
  simp [Proc.bind, h]

theorem bind_exit {α β : Type} (m : Proc α) (f : α → Proc β) (w w1 : World) (code : Int)
    (h : m w = .exit code w1) : (m >>= f) w = .exit code w1 := by
  show Proc.bind m f w = _
  simp [Proc.bind, h]

theorem bind_panic {α β : Type} (m : Proc α) (f : α → Proc β) (w w1 : World) (msg : String)
    (h : m w = .panic msg w1) : (m >>= f) w = .panic msg w1 := by
  show Proc.bind m f w = _
  simp [Proc.bind, h]

/-! ## What the effects of parsing leave unchanged -/

/-- Effects of parsing add only exit requests to the trace, and leave the
logger, the variable `exitFunc` and the failure mark as they were. -/
theorem performAll_frame (effs : List Effect) (w : World) :
    ∃ es, (performAll effs w).world.events = w.events ++ es ∧
      (∀ e ∈ es, e.isExit = true) ∧
      (performAll effs w).world.logger = w.logger ∧
      (performAll effs w).world.exitFunc = w.exitFunc ∧
      (performAll effs w).world.failed = w.failed := by
  induction effs generalizing w with
  | nil => exact ⟨[], by simp [performAll, pure, Res.world]⟩
  | cons e es ih =>
    cases e with
    | println s =>
      obtain ⟨l, h1, h2, h3, h4, h5⟩ := ih { w with stdout := w.stdout ++ s ++ "\n" }
      refine ⟨l, ?_⟩
      have hb : performAll (Effect.println s :: es) w
          = performAll es { w with stdout := w.stdout ++ s ++ "\n" } := by
        show (perform (Effect.println s) >>= fun _ => performAll es) w = _
        exact bind_ret _ _ _ _ () rfl
      rw [hb]
      exact ⟨h1, h2, h3, h4, h5⟩
    | exit code =>
      cases hf : w.exitFunc with
      | osExit =>
        have hb : performAll (Effect.exit code :: es) w
            = .exit code { w with events := w.events ++ [.exitFunc code] ++ [.osExit code] } := by
          show (perform (Effect.exit code) >>= fun _ => performAll es) w = _
          apply bind_exit
          simp [perform, callExitFunc, hf, os_Exit]
        rw [hb]
        refine ⟨[.exitFunc code, .osExit code], by simp [Res.world], ?_, rfl, hf, rfl⟩
        intro e he
        simp at he
        rcases he with rfl | rfl <;> rfl
      | capture =>
        obtain ⟨l, h1, h2, h3, h4, h5⟩ :=
          ih { w with exitValue := code, events := w.events ++ [.exitFunc code] }
        have hb : performAll (Effect.exit code :: es) w
            = performAll es { w with exitValue := code, events := w.events ++ [.exitFunc code] } := by
          show (perform (Effect.exit code) >>= fun _ => performAll es) w = _
          apply bind_ret _ _ _ _ ()
          simp [perform, callExitFunc, hf]
        rw [hb]
        refine ⟨.exitFunc code :: l, by simpa using h1, ?_, h3, by simpa [hf] using h4, h5⟩
        intro e he
        simp at he
        rcases he with rfl | he
        · rfl
        · exact h2 e he
    | panic msg =>
      have hb : performAll (Effect.panic msg :: es) w = .panic msg w := by
        show (perform (Effect.panic msg) >>= fun _ => performAll es) w = _
        exact bind_panic _ _ _ _ _ rfl
      rw [hb]
      exact ⟨[], by simp [Res.world]⟩

/-- While `exitFunc` holds the capturing closure, the effects of parsing never
terminate the process. -/
theorem performAll_capture (effs : List Effect) (w : World) (hf : w.exitFunc = .capture) :
    ∀ code w1, performAll effs w ≠ .exit code w1 := by
  induction effs generalizing w with
  | nil => intro code w1 h; simp [performAll, pure] at h
  | cons e es ih =>
    intro code w1
    cases e with
    | println s =>
      have hb : performAll (Effect.println s :: es) w
          = performAll es { w with stdout := w.stdout ++ s ++ "\n" } := by
        show (perform (Effect.println s) >>= fun _ => performAll es) w = _
        exact bind_ret _ _ _ _ () rfl
      rw [hb]
      exact ih { w with stdout := w.stdout ++ s ++ "\n" } hf code w1
    | exit c =>
      have hb : performAll (Effect.exit c :: es) w
          = performAll es { w with exitValue := c, events := w.events ++ [.exitFunc c] } := by
        show (perform (Effect.exit c) >>= fun _ => performAll es) w = _
        apply bind_ret _ _ _ _ ()
        simp [perform, callExitFunc, hf]
      rw [hb]
      exact ih { w with exitValue := c, events := w.events ++ [.exitFunc c] } hf code w1
    | panic msg =>
      have hb : performAll (Effect.panic msg :: es) w = .panic msg w := by
        show (perform (Effect.panic msg) >>= fun _ => performAll es) w = _
        exact bind_panic _ _ _ _ _ rfl
      rw [hb]
      simp

/-! ## Lemmas on Options.Parse -/

/-- The call of `Options.Parse` records itself, then performs the effects of the
parser; it returns what the parser returns when the effects let it return. -/
theorem Parse_eq (parse : List String → ParseBehaviour) (args : List String) (w : World) :
    Options.Parse parse args w
      = (match performAll (parse args).effects { w with events := w.events ++ [.parse args] } with
        | .ret _ w1 => .ret ((parse args).kongContext, (parse args).options, (parse args).err) w1
        | .exit code w1 => .exit code w1
        | .panic msg w1 => .panic msg w1) := by
  unfold Options.Parse
  rw [bind_ret (emit (.parse args)) _ w { w with events := w.events ++ [.parse args] } () rfl]
  show Proc.bind _ _ _ = _
  unfold Proc.bind
  cases performAll (parse args).effects { w with events := w.events ++ [.parse args] } <;> rfl

/-- Values returned by `Options.Parse` are those of the parser. -/
theorem Parse_ret_values (parse : List String → ParseBehaviour) (args : List String)
    (w w1 : World) (kc : Option KongContext) (o : Options) (err : Option String)
    (h : Options.Parse parse args w = .ret (kc, o, err) w1) :
    kc = (parse args).kongContext ∧ o = (parse args).options ∧ err = (parse args).err := by
  rw [Parse_eq] at h
  cases hp : performAll (parse args).effects { w with events := w.events ++ [.parse args] } <;>
    rw [hp] at h <;> simp at h
  obtain ⟨⟨h1, h2, h3⟩, _⟩ := h
  exact ⟨h1.symm, h2.symm, h3.symm⟩

/-- Trace of a call of `Options.Parse`: the call itself, then exit requests only;
the logger and the variable `exitFunc` are as before. -/
theorem Parse_frame (parse : List String → ParseBehaviour) (args : List String) (w : World) :
    ∃ es, (Options.Parse parse args w).world.events = w.events ++ .parse args :: es ∧
      (∀ e ∈ es, e.isExit = true) ∧
      (Options.Parse parse args w).world.logger = w.logger ∧
      (Options.Parse parse args w).world.exitFunc = w.exitFunc := by
  obtain ⟨es, h1, h2, h3, h4, _⟩ :=
    performAll_frame (parse args).effects { w with events := w.events ++ [.parse args] }
  refine ⟨es, ?_, h2, ?_, ?_⟩ <;> rw [Parse_eq] <;>
    cases hp : performAll (parse args).effects { w with events := w.events ++ [.parse args] } <;>
    rw [hp] at h1 h3 h4 <;> simp [Res.world] at h1 h3 h4 ⊢ <;> assumption

/-! ## Lemmas on main -/

theorem main_of_parse_err (parse : List String → ParseBehaviour)
    (run : KongContext → Options → Option String) (args : List String) (w w1 : World)
    (kc : Option KongContext) (o : Options) (e : String)
    (h : Options.Parse parse args w = .ret (kc, o, some e) w1) :
    main parse run args w
      = .exit 1 { w1 with stdout := w1.stdout ++ e ++ "\n", events := w1.events ++ [.osExit 1] } := by
  unfold main
  rw [bind_ret _ _ _ _ _ h]
  rfl

theorem main_of_parse_ok (parse : List String → ParseBehaviour)
    (run : KongContext → Options → Option String) (args : List String) (w w1 : World)
    (k : KongContext) (o : Options)
    (h : Options.Parse parse args w = .ret (some k, o, none) w1) :
    main parse run args w
      = (match run ⟨k.bindings ++ [⟨.contextContext, .ctx w1.logger⟩,
            ⟨.zerologLogger, .logger w1.logger⟩, ⟨.programOptions, .options o⟩]⟩ o with
        | none => .ret () { w1 with events := w1.events ++ [.bind .contextContext (.ctx w1.logger),
            .bind .zerologLogger (.logger w1.logger), .bind .programOptions (.options o),
            .run (k.bindings ++ [⟨.contextContext, .ctx w1.logger⟩,
              ⟨.zerologLogger, .logger w1.logger⟩, ⟨.programOptions, .options o⟩]) none] }
        | some e => .exit 1 { w1 with events := w1.events ++ [.bind .contextContext (.ctx w1.logger),
            .bind .zerologLogger (.logger w1.logger), .bind .programOptions (.options o),
            .run (k.bindings ++ [⟨.contextContext, .ctx w1.logger⟩,
              ⟨.zerologLogger, .logger w1.logger⟩, ⟨.programOptions, .options o⟩]) (some e),
            .log .error (some e) "Program failed", .osExit 1] }) := by
  unfold main
  rw [bind_ret _ _ _ _ _ h]
  cases hr : run ⟨k.bindings ++ [⟨.contextContext, .ctx w1.logger⟩,
            ⟨.zerologLogger, .logger w1.logger⟩, ⟨.programOptions, .options o⟩]⟩ o <;>
  simp [bind, Proc.bind, pure, log_Logger_WithContext, KongContext.BindTo, KongContext.Bind,
    KongContext.Run, emit, log_Logger, Value.typeOf, hr, log_Err_Msg, os_Exit]

theorem main_of_parse_nil (parse : List String → ParseBehaviour)
    (run : KongContext → Options → Option String) (args : List String) (w w1 : World)
    (o : Options) (h : Options.Parse parse args w = .ret (none, o, none) w1) :
    main parse run args w = .panic "invalid memory address or nil pointer dereference" w1 := by
  unfold main
  rw [bind_ret _ _ _ _ _ h]
  rfl

theorem main_of_parse_exit (parse : List String → ParseBehaviour)
    (run : KongContext → Options → Option String) (args : List String) (w w1 : World)
    (code : Int) (h : Options.Parse parse args w = .exit code w1) :
    main parse run args w = .exit code w1 := by
  unfold main
  exact bind_exit _ _ _ _ _ h

theorem main_of_parse_panic (parse : List String → ParseBehaviour)
    (run : KongContext → Options → Option String) (args : List String) (w w1 : World)
    (msg : String) (h : Options.Parse parse args w = .panic msg w1) :
    main parse run args w = .panic msg w1 := by
  unfold main
  exact bind_panic _ _ _ _ _ h

/-- Every event of a call of `Options.Parse` from an empty trace is the call
itself or an exit request. -/
theorem Parse_events_class (parse : List String → ParseBehaviour) (args : List String)
    (w : World) (hw : w.events = []) :
    ∀ ev ∈ (Options.Parse parse args w).world.events, ev.isParse = true ∨ ev.isExit = true := by
  obtain ⟨es, h1, h2, _, _⟩ := Parse_frame parse args w
  rw [h1, hw]
  intro ev hev
  simp at hev
  rcases hev with rfl | hev
  · exact Or.inl rfl
  · exact Or.inr (h2 ev hev)

/-- A call of `Options.Parse` from an empty trace leaves one call of `Parse` in
the trace, and no run, binding or log record. -/
theorem Parse_counts (parse : List String → ParseBehaviour) (args : List String)
    (w : World) (hw : w.events = []) :
    (Options.Parse parse args w).world.events.countP Event.isParse = 1 ∧
    (Options.Parse parse args w).world.events.countP Event.isRun = 0 ∧
    (Options.Parse parse args w).world.events.countP Event.isBind = 0 ∧
    (Options.Parse parse args w).world.events.countP Event.isLog = 0 := by
  obtain ⟨es, h1, h2, _, _⟩ := Parse_frame parse args w
  rw [h1, hw]
  have hz : es.countP Event.isParse = 0 ∧ es.countP Event.isRun = 0 ∧
      es.countP Event.isBind = 0 ∧ es.countP Event.isLog = 0 := by
    simp only [List.countP_eq_zero]
    refine ⟨?_, ?_, ?_, ?_⟩ <;> intro ev hev <;> have := h2 ev hev <;>
      cases ev <;> simp_all [Event.isParse, Event.isRun, Event.isBind, Event.isLog, Event.isExit]
  obtain ⟨z1, z2, z3, z4⟩ := hz
  simp [List.countP_cons, z1, z2, z3, z4, Event.isParse, Event.isRun, Event.isBind, Event.isLog]

/-- Shape of the trace of `main`: the events of parsing alone (the process ended
or panicked there, or `Parse` returned neither a context nor an error), or these
followed by the exit request after a parse error, or these followed by the three
bindings, the Runner invocation and, when the Runner failed, the log record and
the exit request. -/
theorem main_trace (parse : List String → ParseBehaviour)
    (run : KongContext → Options → Option String) (args : List String) (w : World) :
    (main parse run args w).world.events = (Options.Parse parse args w).world.events ∨
    (∃ e, (parse args).err = some e ∧
      (main parse run args w).world.events
        = (Options.Parse parse args w).world.events ++ [.osExit 1]) ∨
    (∃ k, (parse args).kongContext = some k ∧ (parse args).err = none ∧
      (main parse run args w).world.events
        = (Options.Parse parse args w).world.events ++
            [.bind .contextContext (.ctx w.logger), .bind .zerologLogger (.logger w.logger),
             .bind .programOptions (.options (parse args).options),
             .run (k.bindings ++ [⟨.contextContext, .ctx w.logger⟩,
                ⟨.zerologLogger, .logger w.logger⟩,
                ⟨.programOptions, .options (parse args).options⟩])
               (run ⟨k.bindings ++ [⟨.contextContext, .ctx w.logger⟩,
                ⟨.zerologLogger, .logger w.logger⟩,
                ⟨.programOptions, .options (parse args).options⟩]⟩ (parse args).options)] ++
            (match run ⟨k.bindings ++ [⟨.contextContext, .ctx w.logger⟩,
                ⟨.zerologLogger, .logger w.logger⟩,
                ⟨.programOptions, .options (parse args).options⟩]⟩ (parse args).options with
             | none => []
             | some e => [.log .error (some e) "Program failed", .osExit 1])) := by
  obtain ⟨_, _, _, hl, _⟩ := Parse_frame parse args w
  cases hP : Options.Parse parse args w with
  | exit code w1 =>
    rw [main_of_parse_exit parse run args w w1 code hP]
    exact Or.inl rfl
  | panic msg w1 =>
    rw [main_of_parse_panic parse run args w w1 msg hP]
    exact Or.inl rfl
  | ret a w1 =>
    obtain ⟨kc, o, err⟩ := a
    obtain ⟨h1, h2, h3⟩ := Parse_ret_values parse args w w1 kc o err hP
    rw [hP] at hl
    simp only [Res.world] at hl
    cases err with
    | some e =>
      rw [main_of_parse_err parse run args w w1 kc o e hP]
      exact Or.inr (Or.inl ⟨e, h3.symm, rfl⟩)
    | none =>
      cases kc with
      | none =>
        rw [main_of_parse_nil parse run args w w1 o hP]
        exact Or.inl rfl
      | some k =>
        refine Or.inr (Or.inr ⟨k, h1.symm, h3.symm, ?_⟩)
        rw [main_of_parse_ok parse run args w w1 k o hP, ← h2, hl]
        cases run ⟨k.bindings ++ [⟨.contextContext, .ctx w.logger⟩,
                ⟨.zerologLogger, .logger w.logger⟩, ⟨.programOptions, .options o⟩]⟩ o <;>
          simp [Res.world]

/-! ## Lemmas on the test -/

/-- The test, unfolded: it parses `["--version"]` with the capturing closure
installed and standard output captured, checks the three assertions, and the
deferred function restores `exitFunc` when the body returns or panics. -/
theorem Test_eq (parse : List String → ParseBehaviour) (w : World) :
    TestOptions_Run parse w
      = (match Options.Parse parse ["--version"]
            { w with exitValue := -1, exitFunc := .capture, stdout := "" } with
        | .ret a w1 =>
          .ret () { w1 with
            stdout := w.stdout
            exitFunc := .osExit
            failed := ((w1.failed || a.2.2.isSome) || !decide (w1.exitValue = 0))
              || !decide ("unknown\n" = w1.stdout) }
        | .exit code w1 => .exit code { w1 with stdout := w.stdout }
        | .panic msg w1 => .panic msg { w1 with stdout := w.stdout, exitFunc := .osExit }) := by
  unfold TestOptions_Run
  cases hP : Options.Parse parse ["--version"]
      { w with exitValue := -1, exitFunc := .capture, stdout := "" } with
  | ret a w1 =>
    obtain ⟨kc, o, err⟩ := a
    simp [bind, Proc.bind, withDefer, CaptureStdout, hP, assert_NoError, assert_Equal,
      setExitValue, setExitFunc, getExitValue]
  | exit code w1 =>
    simp [bind, Proc.bind, withDefer, CaptureStdout, hP, assert_NoError, assert_Equal,
      setExitValue, setExitFunc, getExitValue]
  | panic msg w1 =>
    simp [bind, Proc.bind, withDefer, CaptureStdout, hP, assert_NoError, assert_Equal,
      setExitValue, setExitFunc, getExitValue]

/-- While `exitFunc` holds the capturing closure, a call of `Options.Parse` does
not terminate the process. -/
theorem Parse_capture_no_exit (parse : List String → ParseBehaviour) (args : List String)
    (w : World) (hf : w.exitFunc = .capture) (code : Int) (w1 : World) :
    Options.Parse parse args w ≠ .exit code w1 := by
  rw [Parse_eq]
  intro h
  cases hp : performAll (parse args).effects { w with events := w.events ++ [.parse args] } with
  | ret a w2 => rw [hp] at h; cases h
  | panic msg w2 => rw [hp] at h; cases h
  | exit c w2 =>
    exact performAll_capture (parse args).effects { w with events := w.events ++ [.parse args] }
      hf c w2 hp

/-! ## Lemmas on the parser modelled from the spec -/

theorem Parse_malformed (schema : Schema) (args : List String) (w : World)
    (hv : args.all (fun a => a == "--version" || schema.flags.contains a) = false) :
    Options.Parse (Parse schema) args w
      = .ret (none, Options.zero, some (schema.errorText args))
          { w with events := w.events ++ [.parse args] } := by
  have hp : Parse schema args
      = { effects := [], options := Options.zero, kongContext := none,
          err := some (schema.errorText args) } := by
    unfold Parse
    rw [if_neg (by rw [hv]; exact Bool.false_ne_true)]
  rw [Parse_eq, hp]
  rfl

theorem Parse_plain (schema : Schema) (args : List String) (w : World)
    (hv : args.all (fun a => a == "--version" || schema.flags.contains a) = true)
    (hc : args.contains "--version" = false) :
    Options.Parse (Parse schema) args w
      = .ret (some ⟨[]⟩, ⟨false, args⟩, none) { w with events := w.events ++ [.parse args] } := by
  have hp : Parse schema args
      = { effects := [], options := ⟨false, args⟩, kongContext := some ⟨[]⟩, err := none } := by
    unfold Parse
    rw [if_pos hv, if_neg (by rw [hc]; exact Bool.false_ne_true)]
  rw [Parse_eq, hp]
  rfl

theorem Parse_version_exit (schema : Schema) (args : List String) (w : World)
    (hv : args.all (fun a => a == "--version" || schema.flags.contains a) = true)
    (hc : args.contains "--version" = true) (hf : w.exitFunc = .osExit) :
    Options.Parse (Parse schema) args w
      = .exit 0 { w with stdout := w.stdout ++ "unknown\n",
                         events := w.events ++ [.parse args, .exitFunc 0, .osExit 0] } := by
  have hs : w.stdout ++ "unknown" ++ "\n" = w.stdout ++ "unknown\n" := by
    rw [String.append_assoc]
    rfl
  have hp : Parse schema args
      = { effects := [.println Version, .exit 0],
          options := ⟨true, args.filter (fun a => a != "--version")⟩,
          kongContext := some ⟨[]⟩, err := none } := by
    unfold Parse
    rw [if_pos hv, if_pos hc]
  rw [Parse_eq, hp]
  simp [performAll, perform, bind, Proc.bind, fmt_Println, callExitFunc, os_Exit, Version, hs, hf]

theorem Parse_version_capture (schema : Schema) (args : List String) (w : World)
    (hv : args.all (fun a => a == "--version" || schema.flags.contains a) = true)
    (hc : args.contains "--version" = true) (hf : w.exitFunc = .capture) :
    Options.Parse (Parse schema) args w
      = .ret (some ⟨[]⟩, ⟨true, args.filter (fun a => a != "--version")⟩, none)
          { w with stdout := w.stdout ++ "unknown\n", exitValue := 0,
                   events := w.events ++ [.parse args, .exitFunc 0] } := by
  have hs : w.stdout ++ "unknown" ++ "\n" = w.stdout ++ "unknown\n" := by
    rw [String.append_assoc]
    rfl
  have hp : Parse schema args
      = { effects := [.println Version, .exit 0],
          options := ⟨true, args.filter (fun a => a != "--version")⟩,
          kongContext := some ⟨[]⟩, err := none } := by
    unfold Parse
    rw [if_pos hv, if_pos hc]
  rw [Parse_eq, hp]
  simp [performAll, perform, bind, Proc.bind, pure, fmt_Println, callExitFunc, Version, hs, hf]

/-! ## The version flag, parsed under an overridden exit function -/

/-- C1: under an exit function overridden to record its argument, parsing
`["--version"]` returns a context and no error, adds exactly `"unknown\n"` to
standard output and calls the exit function once, with code 0; the trace gains
the call of `Parse` and that exit request only, so the Runner is not run. -/
theorem version_parsed_under_override (schema : Schema) (w : World) :
    Options.Parse (Parse schema) ["--version"] { w with exitFunc := .capture }
      = .ret (some ⟨[]⟩, ⟨true, []⟩, none)
          { w with exitFunc := .capture, stdout := w.stdout ++ "unknown\n", exitValue := 0,
                   events := w.events ++ [.parse ["--version"], .exitFunc 0] } := by
  have hs : w.stdout ++ "unknown" ++ "\n" = w.stdout ++ "unknown\n" := by
    rw [String.append_assoc]
    rfl
  rw [Parse_eq]
  simp [Parse, performAll, perform, bind, Proc.bind, pure, fmt_Println, callExitFunc, Version, hs]

/-! ## Parse errors -/

/-- C2: when `Options.Parse` returns an error, `main` prints it, requests exit
code 1 (the process ends with code 1) and the Runner is never invoked: the only
event after parsing is the exit request, and no run is in the trace. -/
theorem parse_error_exits_without_runner (parse : List String → ParseBehaviour)
    (run : KongContext → Options → Option String) (args : List String) (w w1 : World)
    (kc : Option KongContext) (o : Options) (e : String)
    (hw : w.events = [])
    (h : Options.Parse parse args w = .ret (kc, o, some e) w1) :
    (main parse run args w).exitCode = 1 ∧
    (main parse run args w).world.stdout = w1.stdout ++ e ++ "\n" ∧
    (main parse run args w).world.events = w1.events ++ [.osExit 1] ∧
    (main parse run args w).world.events.countP Event.isRun = 0 := by
  rw [main_of_parse_err parse run args w w1 kc o e h]
  refine ⟨rfl, rfl, rfl, ?_⟩
  obtain ⟨es, h1, h2, _, _⟩ := Parse_frame parse args w
  rw [h, hw] at h1
  simp only [Res.world] at h1 ⊢
  rw [h1, List.countP_eq_zero]
  intro ev hev
  simp at hev
  rcases hev with rfl | hev | rfl
  · simp [Event.isRun]
  · have := h2 ev hev
    cases ev <;> simp_all [Event.isRun, Event.isExit]
  · simp [Event.isRun]

/-- Witness of C2: the argument list `["--bogus-flag"]`. -/
theorem parse_error_exits_without_runner_witness :
    (World.init.events = [] ∧
      Options.Parse (Parse exampleSchema) ["--bogus-flag"] World.init
        = .ret (none, Options.zero, some "unknown flag")
            { World.init with events := [.parse ["--bogus-flag"]] }) ∧
    ((main (Parse exampleSchema) (fun _ _ => none) ["--bogus-flag"] World.init).exitCode = 1 ∧
     (main (Parse exampleSchema) (fun _ _ => none) ["--bogus-flag"] World.init).world.stdout
        = "" ++ "unknown flag" ++ "\n" ∧
     (main (Parse exampleSchema) (fun _ _ => none) ["--bogus-flag"] World.init).world.events
        = [.parse ["--bogus-flag"]] ++ [.osExit 1] ∧
     (main (Parse exampleSchema) (fun _ _ => none) ["--bogus-flag"] World.init).world.events.countP
        Event.isRun = 0) :=
  ⟨⟨rfl, by decide⟩,
   parse_error_exits_without_runner (Parse exampleSchema) (fun _ _ => none) ["--bogus-flag"]
     World.init { World.init with events := [.parse ["--bogus-flag"]] } none Options.zero
     "unknown flag" rfl (by decide)⟩

/-- C10: when `Options.Parse` returns an error `e`, `main` adds exactly the text
of `e` and one newline to standard output, and the process then ends by the exit
request; no event of the run is a binding or a log record. -/
theorem parse_error_prints_and_binds_nothing (parse : List String → ParseBehaviour)
    (run : KongContext → Options → Option String) (args : List String) (w w1 : World)
    (kc : Option KongContext) (o : Options) (e : String)
    (hw : w.events = [])
    (h : Options.Parse parse args w = .ret (kc, o, some e) w1) :
    main parse run args w
      = .exit 1 { w1 with stdout := w1.stdout ++ e ++ "\n", events := w1.events ++ [.osExit 1] } ∧
    (∀ ev ∈ (main parse run args w).world.events, ev.isBind = false ∧ ev.isLog = false) := by
  rw [main_of_parse_err parse run args w w1 kc o e h]
  refine ⟨rfl, ?_⟩
  obtain ⟨es, h1, h2, _, _⟩ := Parse_frame parse args w
  rw [h, hw] at h1
  simp only [Res.world] at h1 ⊢
  rw [h1]
  intro ev hev
  simp at hev
  rcases hev with rfl | hev | rfl
  · simp [Event.isBind, Event.isLog]
  · have := h2 ev hev
    cases ev <;> simp_all [Event.isBind, Event.isLog, Event.isExit]
  · simp [Event.isBind, Event.isLog]

/-- Witness of C10: the argument list `["--bogus-flag", "--debug"]`. -/
theorem parse_error_prints_and_binds_nothing_witness :
    (World.init.events = [] ∧
      Options.Parse (Parse exampleSchema) ["--bogus-flag", "--debug"] World.init
        = .ret (none, Options.zero, some "unknown flag")
            { World.init with events := [.parse ["--bogus-flag", "--debug"]] }) ∧
    (main (Parse exampleSchema) (fun _ _ => none) ["--bogus-flag", "--debug"] World.init
        = .exit 1
            { World.init with
              stdout := "" ++ "unknown flag" ++ "\n"
              events := [.parse ["--bogus-flag", "--debug"]] ++ [.osExit 1] } ∧
     (∀ ev ∈ (main (Parse exampleSchema) (fun _ _ => none) ["--bogus-flag", "--debug"]
        World.init).world.events, ev.isBind = false ∧ ev.isLog = false)) :=
  ⟨⟨rfl, by decide⟩,
   parse_error_prints_and_binds_nothing (Parse exampleSchema) (fun _ _ => none)
     ["--bogus-flag", "--debug"] World.init
     { World.init with events := [.parse ["--bogus-flag", "--debug"]] } none Options.zero
     "unknown flag" rfl (by decide)⟩

/-! ## The outcome of the Runner -/

/-- C3: when `Options.Parse` returns a context and no error, `main` makes its
three bindings and invokes the Runner.  If the Runner returns no error, `main`
returns (exit code 0) and the Runner invocation is the last event: no exit is
requested and nothing is logged.  If the Runner returns an error `e`, `main`
logs `e` at error level with the message "Program failed" and then requests exit
code 1. -/
theorem runner_outcome_decides_exit (parse : List String → ParseBehaviour)
    (run : KongContext → Options → Option String) (args : List String) (w w1 : World)
    (k : KongContext) (o : Options)
    (h : Options.Parse parse args w = .ret (some k, o, none) w1) :
    (run ⟨k.bindings ++ [⟨.contextContext, .ctx w1.logger⟩, ⟨.zerologLogger, .logger w1.logger⟩,
        ⟨.programOptions, .options o⟩]⟩ o = none →
      (main parse run args w).exitCode = 0 ∧
      main parse run args w
        = .ret () { w1 with events := w1.events ++ [.bind .contextContext (.ctx w1.logger),
            .bind .zerologLogger (.logger w1.logger), .bind .programOptions (.options o),
            .run (k.bindings ++ [⟨.contextContext, .ctx w1.logger⟩,
              ⟨.zerologLogger, .logger w1.logger⟩, ⟨.programOptions, .options o⟩]) none] }) ∧
    (∀ e, run ⟨k.bindings ++ [⟨.contextContext, .ctx w1.logger⟩,
        ⟨.zerologLogger, .logger w1.logger⟩, ⟨.programOptions, .options o⟩]⟩ o = some e →
      (main parse run args w).exitCode = 1 ∧
      main parse run args w
        = .exit 1 { w1 with events := w1.events ++ [.bind .contextContext (.ctx w1.logger),
            .bind .zerologLogger (.logger w1.logger), .bind .programOptions (.options o),
            .run (k.bindings ++ [⟨.contextContext, .ctx w1.logger⟩,
              ⟨.zerologLogger, .logger w1.logger⟩, ⟨.programOptions, .options o⟩]) (some e),
            .log .error (some e) "Program failed", .osExit 1] }) := by
  constructor
  · intro hr
    rw [main_of_parse_ok parse run args w w1 k o h, hr]
    exact ⟨rfl, rfl⟩
  · intro e hr
    rw [main_of_parse_ok parse run args w w1 k o h, hr]
    exact ⟨rfl, rfl⟩

/-- Witness of C3: the argument list `["--debug"]`, with a Runner that fails
exactly when the options bound to it hold the flag `--debug`, and with one that
never fails. -/
theorem runner_outcome_decides_exit_witness :
    Options.Parse (Parse exampleSchema) ["--debug"] World.init
      = .ret (some ⟨[]⟩, ⟨false, ["--debug"]⟩, none)
          { World.init with events := [.parse ["--debug"]] } ∧
    (main (Parse exampleSchema) (fun _ _ => none) ["--debug"] World.init).exitCode = 0 ∧
    (main (Parse exampleSchema)
      (fun _ o => if o.flags.contains "--debug" then some "boom" else none)
      ["--debug"] World.init).exitCode = 1 :=
  ⟨by decide,
   ((runner_outcome_decides_exit (Parse exampleSchema) (fun _ _ => none) ["--debug"] World.init
      { World.init with events := [.parse ["--debug"]] } ⟨[]⟩ ⟨false, ["--debug"]⟩
      (by decide)).1 rfl).1,
   ((runner_outcome_decides_exit (Parse exampleSchema)
      (fun _ o => if o.flags.contains "--debug" then some "boom" else none) ["--debug"] World.init
      { World.init with events := [.parse ["--debug"]] } ⟨[]⟩ ⟨false, ["--debug"]⟩
      (by decide)).2 "boom" (by decide)).1⟩

/-! ## How often parsing and the Runner happen -/

/-- C6: in every execution of `main`, `Options.Parse` is called exactly once and
the Runner is invoked at most once; the Runner is not invoked when `Parse`
returned an error, nor when the process ended inside `Parse` (the short-circuit
of the version flag). -/
theorem parse_once_runner_at_most_once (parse : List String → ParseBehaviour)
    (run : KongContext → Options → Option String) (args : List String) (w : World)
    (hw : w.events = []) :
    (main parse run args w).world.events.countP Event.isParse = 1 ∧
    (main parse run args w).world.events.countP Event.isRun ≤ 1 ∧
    ((∃ kc o e w1, Options.Parse parse args w = .ret (kc, o, some e) w1) →
      (main parse run args w).world.events.countP Event.isRun = 0) ∧
    ((∃ code w1, Options.Parse parse args w = .exit code w1) →
      (main parse run args w).world.events.countP Event.isRun = 0) := by
  obtain ⟨c1, c2, _, _⟩ := Parse_counts parse args w hw
  refine ⟨?_, ?_, ?_, ?_⟩
  · rcases main_trace parse run args w with h | ⟨e, _, h⟩ | ⟨k, _, _, h⟩
    · rw [h, c1]
    · rw [h, List.countP_append, c1]
      rfl
    · rw [h, List.countP_append, List.countP_append, c1]
      cases run _ _ <;> rfl
  · rcases main_trace parse run args w with h | ⟨e, _, h⟩ | ⟨k, _, _, h⟩
    · rw [h, c2]
      exact Nat.zero_le 1
    · rw [h, List.countP_append, c2]
      exact Nat.zero_le 1
    · rw [h, List.countP_append, List.countP_append, c2]
      cases run _ _ <;> exact Nat.le_refl 1
  · rintro ⟨kc, o, e, w1, hP⟩
    rw [hP] at c2
    rw [main_of_parse_err parse run args w w1 kc o e hP]
    simp only [Res.world] at c2 ⊢
    rw [List.countP_append, c2]
    rfl
  · rintro ⟨code, w1, hP⟩
    rw [hP] at c2
    rw [main_of_parse_exit parse run args w w1 code hP]
    exact c2

/-- Witness of C6: the argument lists `["--version"]` (the process ends inside
`Parse`) and `["--bogus-flag"]` (a parse error), from the initial state. -/
theorem parse_once_runner_at_most_once_witness :
    World.init.events = [] ∧
    (main (Parse exampleSchema) (fun _ _ => none) ["--version"]
      World.init).world.events.countP Event.isParse = 1 ∧
    (main (Parse exampleSchema) (fun _ _ => none) ["--version"]
      World.init).world.events.countP Event.isRun = 0 ∧
    (main (Parse exampleSchema) (fun _ _ => none) ["--bogus-flag"]
      World.init).world.events.countP Event.isRun = 0 :=
  ⟨rfl,
   (parse_once_runner_at_most_once (Parse exampleSchema) (fun _ _ => none) ["--version"]
      World.init rfl).1,
   (parse_once_runner_at_most_once (Parse exampleSchema) (fun _ _ => none) ["--version"]
      World.init rfl).2.2.2
      ⟨0, { World.init with stdout := "unknown\n",
                            events := [.parse ["--version"], .exitFunc 0, .osExit 0] },
        by decide⟩,
   (parse_once_runner_at_most_once (Parse exampleSchema) (fun _ _ => none) ["--bogus-flag"]
      World.init rfl).2.2.1
      ⟨none, Options.zero, "unknown flag", { World.init with events := [.parse ["--bogus-flag"]] },
        by decide⟩⟩

/-! ## The container at the time the Runner is invoked -/

/-- C5: whenever the Runner is invoked by `main`, the trace before the invocation
ends with exactly three bindings, made in this order: the context carrying the
global logger under `context.Context`, the logger, the parsed options; the
Runner gets the context of `Parse` with these three bindings appended; no other
binding is made before, and none after the Runner has started. -/
theorem runner_gets_three_bindings (parse : List String → ParseBehaviour)
    (run : KongContext → Options → Option String) (args : List String) (w : World)
    (bs : List Binding) (res : Option String) (hw : w.events = [])
    (hrun : Event.run bs res ∈ (main parse run args w).world.events) :
    ∃ k front tail, (parse args).kongContext = some k ∧
      bs = k.bindings ++ [⟨.contextContext, .ctx w.logger⟩, ⟨.zerologLogger, .logger w.logger⟩,
        ⟨.programOptions, .options (parse args).options⟩] ∧
      (main parse run args w).world.events
        = front ++ [.bind .contextContext (.ctx w.logger), .bind .zerologLogger (.logger w.logger),
            .bind .programOptions (.options (parse args).options), .run bs res] ++ tail ∧
      (∀ ev ∈ front, ev.isBind = false ∧ ev.isRun = false) ∧
      (∀ ev ∈ tail, ev.isBind = false ∧ ev.isRun = false) := by
  have hclass := Parse_events_class parse args w hw
  have hfront : ∀ ev ∈ (Options.Parse parse args w).world.events,
      ev.isBind = false ∧ ev.isRun = false := by
    intro ev hev
    rcases hclass ev hev with h | h <;> cases ev <;>
      simp_all [Event.isBind, Event.isRun, Event.isParse, Event.isExit]
  rcases main_trace parse run args w with h | ⟨e, _, h⟩ | ⟨k, hk, _, h⟩
  · rw [h] at hrun
    have := (hfront _ hrun).2
    simp [Event.isRun] at this
  · rw [h] at hrun
    simp only [List.mem_append, List.mem_singleton] at hrun
    rcases hrun with hrun | hrun
    · have := (hfront _ hrun).2
      simp [Event.isRun] at this
    · cases hrun
  · rw [h] at hrun
    simp only [List.mem_append] at hrun
    have hbr : bs = k.bindings ++ [⟨.contextContext, .ctx w.logger⟩,
          ⟨.zerologLogger, .logger w.logger⟩, ⟨.programOptions, .options (parse args).options⟩] ∧
        res = run ⟨k.bindings ++ [⟨.contextContext, .ctx w.logger⟩,
          ⟨.zerologLogger, .logger w.logger⟩,
          ⟨.programOptions, .options (parse args).options⟩]⟩ (parse args).options := by
      rcases hrun with (hrun | hrun) | hrun
      · have := (hfront _ hrun).2
        simp [Event.isRun] at this
      · simpa using hrun
      · cases hr : run ⟨k.bindings ++ [⟨.contextContext, .ctx w.logger⟩,
          ⟨.zerologLogger, .logger w.logger⟩,
          ⟨.programOptions, .options (parse args).options⟩]⟩ (parse args).options <;>
          rw [hr] at hrun <;> simp at hrun
    obtain ⟨hb, hr⟩ := hbr
    refine ⟨k, (Options.Parse parse args w).world.events,
      (match run ⟨k.bindings ++ [⟨.contextContext, .ctx w.logger⟩,
          ⟨.zerologLogger, .logger w.logger⟩,
          ⟨.programOptions, .options (parse args).options⟩]⟩ (parse args).options with
       | none => []
       | some e => [.log .error (some e) "Program failed", .osExit 1]),
      hk, hb, ?_, hfront, ?_⟩
    · rw [h, hb, hr]
    · intro ev hev
      cases hr2 : run ⟨k.bindings ++ [⟨.contextContext, .ctx w.logger⟩,
          ⟨.zerologLogger, .logger w.logger⟩,
          ⟨.programOptions, .options (parse args).options⟩]⟩ (parse args).options <;>
        rw [hr2] at hev <;> simp at hev
      rcases hev with rfl | rfl <;> exact ⟨rfl, rfl⟩

/-- Witness of C5: the argument list `["--debug"]` with a Runner that fails. -/
theorem runner_gets_three_bindings_witness :
    (World.init.events = [] ∧
      Event.run [⟨.contextContext, .ctx ⟨"default"⟩⟩, ⟨.zerologLogger, .logger ⟨"default"⟩⟩,
          ⟨.programOptions, .options ⟨false, ["--debug"]⟩⟩] (some "boom")
        ∈ (main (Parse exampleSchema) (fun _ _ => some "boom") ["--debug"] World.init).world.events) ∧
    ∃ k front tail, (Parse exampleSchema ["--debug"]).kongContext = some k ∧
      [⟨.contextContext, .ctx ⟨"default"⟩⟩, ⟨.zerologLogger, .logger ⟨"default"⟩⟩,
          ⟨.programOptions, .options ⟨false, ["--debug"]⟩⟩]
        = k.bindings ++ [⟨.contextContext, .ctx World.init.logger⟩,
            ⟨.zerologLogger, .logger World.init.logger⟩,
            ⟨.programOptions, .options (Parse exampleSchema ["--debug"]).options⟩] ∧
      (main (Parse exampleSchema) (fun _ _ => some "boom") ["--debug"] World.init).world.events
        = front ++ [.bind .contextContext (.ctx World.init.logger),
            .bind .zerologLogger (.logger World.init.logger),
            .bind .programOptions (.options (Parse exampleSchema ["--debug"]).options),
            .run [⟨.contextContext, .ctx ⟨"default"⟩⟩, ⟨.zerologLogger, .logger ⟨"default"⟩⟩,
              ⟨.programOptions, .options ⟨false, ["--debug"]⟩⟩] (some "boom")] ++ tail ∧
      (∀ ev ∈ front, ev.isBind = false ∧ ev.isRun = false) ∧
      (∀ ev ∈ tail, ev.isBind = false ∧ ev.isRun = false) :=
  ⟨⟨rfl, by decide⟩,
   runner_gets_three_bindings (Parse exampleSchema) (fun _ _ => some "boom") ["--debug"]
     World.init _ _ rfl (by decide)⟩

/-! ## The exit code of the process -/

/-- C4: with the parser modelled from the spec and `exitFunc` at its default,
for every argument list and every Runner the exit code of `main` is 0 or 1; it
is 1 exactly when `Options.Parse` returned an error or the Runner was invoked
and returned an error; it is 0 when the Runner was invoked and returned no
error, and 0 when the version flag is given among recognised flags. -/
theorem exit_code_zero_or_one (schema : Schema)
    (run : KongContext → Options → Option String) (args : List String) (w : World)
    (hf : w.exitFunc = .osExit) (hw : w.events = []) :
    ((main (Parse schema) run args w).exitCode = 0 ∨
      (main (Parse schema) run args w).exitCode = 1) ∧
    ((main (Parse schema) run args w).exitCode = 1 ↔
      ((∃ kc o e w1, Options.Parse (Parse schema) args w = .ret (kc, o, some e) w1) ∨
       (∃ bs e, Event.run bs (some e) ∈ (main (Parse schema) run args w).world.events))) ∧
    ((∃ bs, Event.run bs none ∈ (main (Parse schema) run args w).world.events) →
      (main (Parse schema) run args w).exitCode = 0) ∧
    (("--version" ∈ args ∧ ∀ a ∈ args, a = "--version" ∨ a ∈ schema.flags) →
      (main (Parse schema) run args w).exitCode = 0) := by
  cases hv : args.all (fun a => a == "--version" || schema.flags.contains a) with
  | false =>
    have hP := Parse_malformed schema args w hv
    rw [main_of_parse_err (Parse schema) run args w _ _ _ _ hP]
    refine ⟨Or.inr rfl, ⟨fun _ => Or.inl ⟨_, _, _, _, hP⟩, fun _ => rfl⟩, ?_, ?_⟩
    · rintro ⟨bs, hbs⟩
      simp [Res.world, hw] at hbs
    · rintro ⟨_, hall⟩
      have : args.all (fun a => a == "--version" || schema.flags.contains a) = true := by
        simpa using hall
      rw [hv] at this
      cases this
  | true =>
    cases hc : args.contains "--version" with
    | true =>
      have hP := Parse_version_exit schema args w hv hc hf
      rw [main_of_parse_exit (Parse schema) run args w _ _ hP]
      refine ⟨Or.inl rfl, ⟨fun h => ?_, fun h => ?_⟩, fun _ => rfl, fun _ => rfl⟩
      · simp [Res.exitCode] at h
      · rcases h with ⟨kc, o, e, w1, h⟩ | ⟨bs, e, h⟩
        · rw [hP] at h
          cases h
        · simp [Res.world, hw] at h
    | false =>
      have hP := Parse_plain schema args w hv hc
      rw [main_of_parse_ok (Parse schema) run args w _ _ _ hP]
      cases hr : run ⟨[] ++ [⟨.contextContext, .ctx w.logger⟩, ⟨.zerologLogger, .logger w.logger⟩,
          ⟨.programOptions, .options ⟨false, args⟩⟩]⟩ ⟨false, args⟩ with
      | none =>
        simp only [List.nil_append] at hr
        simp only [List.nil_append, hr]
        refine ⟨Or.inl rfl, ⟨fun h => ?_, fun h => ?_⟩, fun _ => rfl, fun _ => rfl⟩
        · simp [Res.exitCode] at h
        · rcases h with ⟨kc, o, e, w1, h⟩ | ⟨bs, e, h⟩
          · rw [hP] at h
            simp at h
          · simp [Res.world, hw] at h
      | some e =>
        simp only [List.nil_append] at hr
        simp only [List.nil_append, hr]
        refine ⟨Or.inr rfl, ⟨fun _ => Or.inr ⟨[⟨.contextContext, .ctx w.logger⟩,
          ⟨.zerologLogger, .logger w.logger⟩, ⟨.programOptions, .options ⟨false, args⟩⟩],
          e, ?_⟩, fun _ => rfl⟩, ?_, ?_⟩
        · simp [Res.world]
        · rintro ⟨bs, hbs⟩
          simp [Res.world, hw] at hbs
        · rintro ⟨hmem, _⟩
          have : args.contains "--version" = true := by simpa using hmem
          rw [hc] at this
          cases this

/-- Witness of C4: the argument list `["--version", "--debug"]` from the initial
state; the process ends with code 0. -/
theorem exit_code_zero_or_one_witness :
    (World.init.exitFunc = .osExit ∧ World.init.events = [] ∧
      "--version" ∈ ["--version", "--debug"] ∧
      ∀ a ∈ ["--version", "--debug"], a = "--version" ∨ a ∈ exampleSchema.flags) ∧
    (main (Parse exampleSchema) (fun _ _ => some "boom") ["--version", "--debug"]
      World.init).exitCode = 0 :=
  ⟨⟨rfl, rfl, by decide, by decide⟩,
   (exit_code_zero_or_one exampleSchema (fun _ _ => some "boom") ["--version", "--debug"]
      World.init rfl rfl).2.2.2 ⟨by decide, by decide⟩⟩

/-! ## The override of the exit function in the test -/

/-- C7: with the parser modelled from the spec, the test calls the capturing
function exactly once (the trace gains the call of `Parse` and one call of
`exitFunc`, with code 0, which `exitValue` records), passes, and leaves
`exitFunc` at `os.Exit`; and for every behaviour of the parser, whether the
body returns, fails an assertion or panics, `exitFunc` is `os.Exit` after the
test. -/
theorem test_captures_once_and_restores :
    (∀ (schema : Schema) (w : World),
      TestOptions_Run (Parse schema) w
        = .ret () { w with exitFunc := .osExit, exitValue := 0,
                           events := w.events ++ [.parse ["--version"], .exitFunc 0] }) ∧
    (∀ (parse : List String → ParseBehaviour) (w : World),
      (TestOptions_Run parse w).world.exitFunc = .osExit) := by
  constructor
  · intro schema w
    have hP := Parse_version_capture schema ["--version"]
      { w with exitValue := -1, exitFunc := .capture, stdout := "" } (by simp) (by simp) rfl
    have hs : ("" : String) ++ "unknown\n" = "unknown\n" := rfl
    rw [Test_eq, hP]
    simp [hs]
  · intro parse w
    rw [Test_eq]
    cases hP : Options.Parse parse ["--version"]
        { w with exitValue := -1, exitFunc := .capture, stdout := "" } with
    | ret a w1 => rfl
    | panic msg w1 => rfl
    | exit code w1 =>
      exact absurd hP (Parse_capture_no_exit parse ["--version"] _ rfl code w1)

/-! ## Which exit requests go through the exit function -/

/-- C9, as stated, fails: with the capturing closure installed, `main` ends the
process with code 1 after a parse error, and also after a Runner error, by
`os.Exit` itself; no call goes through `exitFunc` and `exitValue` keeps its
value -1, so the override observes neither request. -/
theorem exits_of_main_bypass_override :
    (main failingParser (fun _ _ => none) ["--bogus-flag"] World.overridden).exitCode = 1 ∧
    Event.osExit 1
      ∈ (main failingParser (fun _ _ => none) ["--bogus-flag"] World.overridden).world.events ∧
    (main failingParser (fun _ _ => none) ["--bogus-flag"]
      World.overridden).world.events.countP Event.isExitFunc = 0 ∧
    (main failingParser (fun _ _ => none) ["--bogus-flag"] World.overridden).world.exitValue = -1 ∧
    (main acceptingParser (fun _ _ => some "boom") [] World.overridden).exitCode = 1 ∧
    Event.osExit 1
      ∈ (main acceptingParser (fun _ _ => some "boom") [] World.overridden).world.events ∧
    (main acceptingParser (fun _ _ => some "boom") []
      World.overridden).world.events.countP Event.isExitFunc = 0 ∧
    (main acceptingParser (fun _ _ => some "boom") [] World.overridden).world.exitValue = -1 := by
  decide

/-- C9, amended: the exit request of the version short-circuit, made during
parsing, goes through `exitFunc`, so that the capturing closure observes its
code 0 and the process goes on; the two exit requests `main` makes itself, after
a parse error and after a Runner error, are calls of `os.Exit(1)`: they end the
process, add no call of `exitFunc` to the trace and leave `exitValue` as it was
after parsing. -/
theorem exit_requests_by_path :
    (∀ (schema : Schema) (args : List String) (w : World),
      w.exitFunc = .capture → "--version" ∈ args →
      (∀ a ∈ args, a = "--version" ∨ a ∈ schema.flags) →
      ∃ v w1, Options.Parse (Parse schema) args w = .ret v w1 ∧ w1.exitValue = 0 ∧
        w1.events = w.events ++ [.parse args, .exitFunc 0]) ∧
    (∀ (parse : List String → ParseBehaviour) (run : KongContext → Options → Option String)
      (args : List String) (w w1 : World) (kc : Option KongContext) (o : Options) (e : String),
      Options.Parse parse args w = .ret (kc, o, some e) w1 →
      (main parse run args w).exitCode = 1 ∧
      (main parse run args w).world.events = w1.events ++ [.osExit 1] ∧
      (main parse run args w).world.exitValue = w1.exitValue) ∧
    (∀ (parse : List String → ParseBehaviour) (run : KongContext → Options → Option String)
      (args : List String) (w w1 : World) (k : KongContext) (o : Options) (e : String),
      Options.Parse parse args w = .ret (some k, o, none) w1 →
      run ⟨k.bindings ++ [⟨.contextContext, .ctx w1.logger⟩, ⟨.zerologLogger, .logger w1.logger⟩,
        ⟨.programOptions, .options o⟩]⟩ o = some e →
      (main parse run args w).exitCode = 1 ∧
      Event.osExit 1 ∈ (main parse run args w).world.events ∧
      (main parse run args w).world.events.countP Event.isExitFunc
        = w1.events.countP Event.isExitFunc ∧
      (main parse run args w).world.exitValue = w1.exitValue) := by
  refine ⟨?_, ?_, ?_⟩
  · intro schema args w hf hmem hall
    have hv : args.all (fun a => a == "--version" || schema.flags.contains a) = true := by
      simpa using hall
    have hc : args.contains "--version" = true := by simpa using hmem
    exact ⟨_, _, Parse_version_capture schema args w hv hc hf, rfl, rfl⟩
  · intro parse run args w w1 kc o e hP
    rw [main_of_parse_err parse run args w w1 kc o e hP]
    exact ⟨rfl, rfl, rfl⟩
  · intro parse run args w w1 k o e hP hr
    rw [main_of_parse_ok parse run args w w1 k o hP, hr]
    refine ⟨rfl, ?_, ?_, rfl⟩
    · simp [Res.world]
    · simp [Res.world, List.countP_append, List.countP_cons, Event.isExitFunc]

/-- Witness of C9, amended: `["--version"]` under the capturing closure, a parser
that fails, and a Runner that fails. -/
theorem exit_requests_by_path_witness :
    (∃ v w1, Options.Parse (Parse exampleSchema) ["--version"] World.overridden = .ret v w1 ∧
      w1.exitValue = 0 ∧
      w1.events = World.overridden.events ++ [.parse ["--version"], .exitFunc 0]) ∧
    (main failingParser (fun _ _ => none) ["--bogus-flag"] World.overridden).world.events
      = [.parse ["--bogus-flag"]] ++ [.osExit 1] ∧
    (main acceptingParser (fun _ _ => some "boom") [] World.overridden).world.exitValue = -1 :=
  ⟨exit_requests_by_path.1 exampleSchema ["--version"] World.overridden rfl (by decide)
      (by decide),
   (exit_requests_by_path.2.1 failingParser (fun _ _ => none) ["--bogus-flag"] World.overridden
      { World.overridden with events := [.parse ["--bogus-flag"]] } none Options.zero
      "unknown flag" (by decide)).2.1,
   (exit_requests_by_path.2.2 acceptingParser (fun _ _ => some "boom") [] World.overridden
      { World.overridden with events := [.parse []] } ⟨[]⟩ ⟨false, []⟩ "boom"
      (by decide) rfl).2.2.2⟩

end GolangProgram
